import Mathlib

/-!
Shallow embedding of the Debuggers Hut hotel-booking core, translated from
`report/ProgFunA1_s4181834/ProgFunA1_s4181834.py` (the pure calculation
functions also appear verbatim in `src/hotel_booking/calculations.py`).

Modelling conventions:
* Python floats are rationals (`ℚ`), Python ints are integers (`ℤ`).
* Python dicts are insertion-ordered association lists; `dict[k] = v`
  replaces the first binding of `k` or appends a fresh one, exactly as a
  dict updates in place and preserves insertion order.
* A Python function that can `raise ValueError` returns an
  `Except String _` outcome; mutating functions return the outcome paired
  with the store, the store being returned unchanged on the error paths
  (the `raise` in the source always happens before any mutation).
* Python's character classes (`str.isdigit`, `str.isalpha`, `str.isalnum`,
  `str.lower`, `str.strip`, `str.split`) are modelled on their ASCII
  behaviour, stated over code points.
-/

namespace DebuggersHut

/-- Python `ch.isdigit()` on ASCII: `0`–`9` (code points 48–57). -/
def pyIsDigit (c : Char) : Bool := 48 ≤ c.toNat && c.toNat ≤ 57

/-- Python `ch.isalpha()` on ASCII: `A`–`Z` (65–90) or `a`–`z` (97–122). -/
def pyIsAlpha (c : Char) : Bool :=
  (65 ≤ c.toNat && c.toNat ≤ 90) || (97 ≤ c.toNat && c.toNat ≤ 122)

/-- Python `ch.isalnum()` on ASCII: a letter or a digit. -/
def pyIsAlnum (c : Char) : Bool := pyIsAlpha c || pyIsDigit c

/-- Python whitespace for `str.strip()` / `str.split()`:
space, tab, newline, carriage return, form feed, vertical tab. -/
def pyIsSpace (c : Char) : Bool :=
  c.toNat = 32 || c.toNat = 9 || c.toNat = 10 || c.toNat = 13 ||
  c.toNat = 12 || c.toNat = 11

/-- Python `ch.lower()` on ASCII: maps `A`–`Z` to `a`–`z`. -/
def pyToLower (c : Char) : Char :=
  if 65 ≤ c.toNat ∧ c.toNat ≤ 90 then Char.ofNat (c.toNat + 32) else c

/-- Strip leading and trailing whitespace from a character list. -/
def stripList (l : List Char) : List Char :=
  ((l.dropWhile pyIsSpace).reverse.dropWhile pyIsSpace).reverse

/-- Python `s.strip()`. -/
def pyStrip (s : String) : String := ⟨stripList s.data⟩

/-- Python `s.lower()` on ASCII. -/
def pyLower (s : String) : String := ⟨s.data.map pyToLower⟩

/-- Helper for `pySplitComma`: split a character list at each `,`. -/
def splitCommaAux : List Char → List Char → List String
  | [], acc => [⟨acc.reverse⟩]
  | c :: rest, acc =>
    if c = ',' then ⟨acc.reverse⟩ :: splitCommaAux rest []
    else splitCommaAux rest (c :: acc)

/-- Python `s.split(",")`. -/
def pySplitComma (s : String) : List String := splitCommaAux s.data []

/-- Helper for `pyWords`: split at whitespace runs, dropping empty words. -/
def wordsAux : List Char → List Char → List String
  | [], acc => if acc.isEmpty then [] else [⟨acc.reverse⟩]
  | c :: rest, acc =>
    if pyIsSpace c then
      if acc.isEmpty then wordsAux rest []
      else ⟨acc.reverse⟩ :: wordsAux rest []
    else wordsAux rest (c :: acc)

/-- Python `s.split()` (no separator: whitespace runs, no empty words). -/
def pyWords (s : String) : List String := wordsAux s.data []

/-- `d.get(k, default)` on an association-list dict. -/
def lookupD {α : Type} : List (String × α) → String → α → α
  | [], _, d => d
  | (k, v) :: rest, n, d => if k = n then v else lookupD rest n d

/-- `k in d` / `d[k]` as an optional lookup on an association-list dict. -/
def lookupOpt {α : Type} : List (String × α) → String → Option α
  | [], _ => none
  | (k, v) :: rest, n => if k = n then some v else lookupOpt rest n

/-- `d[k] = v` on an association-list dict: replace the first binding of
`k`, or append a fresh one. -/
def storeSet {α : Type} : List (String × α) → String → α → List (String × α)
  | [], n, v => [(n, v)]
  | (k, w) :: rest, n, v =>
    if k = n then (n, v) :: rest else (k, w) :: storeSet rest n v

/-- Number of bindings of a key in an association-list dict. -/
def countKey {α : Type} (s : List (String × α)) (k : String) : ℕ :=
  s.countP (fun p => decide (p.1 = k))

/-- The `_guests_points` dict: guest name to point balance. -/
abbrev LedgerStore := List (String × ℤ)

/-- An apartment record `{"rate": .., "capacity": ..}`. -/
structure AptInfo where
  rate : ℚ
  capacity : ℤ

/-- The `_apartments` dict. -/
abbrev AptStore := List (String × AptInfo)

/-- The `_items` dict: item id to price. -/
abbrev ItemStore := List (String × ℚ)

/-- From `get_guest_points`: current points for guest (0 if missing). -/
def get_guest_points (s : LedgerStore) (guest_name : String) : ℤ :=
  lookupD s guest_name 0

/-- From `add_points`: add positive points for guest (create if new);
raises on an empty (after strip) name or on negative points. -/
def add_points (s : LedgerStore) (guest_name : String) (earned : ℤ) :
    Except String ℤ × LedgerStore :=
  if pyStrip guest_name = "" then (.error "Guest name cannot be empty", s)
  else if earned < 0 then (.error "Earned points cannot be negative", s)
  else
    let new_total := lookupD s guest_name 0 + earned
    (.ok new_total, storeSet s guest_name new_total)

/-- From `spend_points`: deduct points from guest; raises on a negative
amount or on insufficient balance. -/
def spend_points (s : LedgerStore) (guest_name : String) (points : ℤ) :
    Except String ℤ × LedgerStore :=
  if points < 0 then (.error "Points to spend cannot be negative", s)
  else
    let balance := lookupD s guest_name 0
    if balance < points then (.error "Insufficient points", s)
    else
      let new_total := balance - points
      (.ok new_total, storeSet s guest_name new_total)

/-- From `get_rate`: rate for an id, compared case-insensitively over
the stored keys; `0.0` if not found. -/
def get_rate : AptStore → String → ℚ
  | [], _ => 0
  | (k, v) :: rest, apartment_id =>
    if pyLower k = pyLower apartment_id then v.rate
    else get_rate rest apartment_id

/-- From `get_capacity`: capacity for an id, case-insensitively;
`0` if not found. -/
def get_capacity : AptStore → String → ℤ
  | [], _ => 0
  | (k, v) :: rest, apartment_id =>
    if pyLower k = pyLower apartment_id then v.capacity
    else get_capacity rest apartment_id

/-- The character-level scan of `_is_valid_apartment_id`: a leading `U`,
then a greedy nonempty run of digits (the index loop), then a letter,
then letters and digits to the end. -/
def validIdScan : List Char → Bool
  | [] => false
  | c0 :: rest =>
    if c0 ≠ 'U' then false
    else
      if (rest.takeWhile pyIsDigit).isEmpty then false
      else
        match rest.dropWhile pyIsDigit with
        | [] => false
        | c :: rest3 => pyIsAlpha c && (c :: rest3).all pyIsAlnum

/-- From `_is_valid_apartment_id`. -/
def is_valid_apartment_id (apartment_id : String) : Bool :=
  validIdScan apartment_id.data

/-- From `upsert_apartment`: validate the id, the rate and the capacity,
then fully overwrite (or insert) the record. -/
def upsert_apartment (apts : AptStore) (apartment_id : String)
    (rate : ℚ) (capacity : ℤ) : Except String Unit × AptStore :=
  if ¬ is_valid_apartment_id apartment_id then
    (.error "Invalid apartment id format (e.g., U12swan)", apts)
  else if rate ≤ 0 then (.error "Rate must be positive", apts)
  else if capacity ≤ 0 then (.error "Capacity must be positive", apts)
  else (.ok (), storeSet apts apartment_id ⟨rate, capacity⟩)

/-- Value of a digit run, most significant first (`int("...")`). -/
def digitsVal (l : List Char) : ℕ :=
  l.foldl (fun a c => 10 * a + (c.toNat - 48)) 0

/-- Modelled from Python's built-in `float(s)` restricted to plain decimal
literals: an optional sign, an optional integer digit run, an optional
`.` followed by an optional fractional digit run, at least one digit in
all.  (The exponent, `inf` and `nan` forms accepted by `float` play no
role in this system and are not modelled.) -/
def parseDecimal (s : String) : Option ℚ :=
  let (neg, cs) : Bool × List Char :=
    match s.data with
    | '+' :: rest => (false, rest)
    | '-' :: rest => (true, rest)
    | cs => (false, cs)
  let ip := cs.takeWhile pyIsDigit
  match cs.dropWhile pyIsDigit with
  | [] =>
    if ip.isEmpty then none
    else some (if neg then -(digitsVal ip : ℚ) else (digitsVal ip : ℚ))
  | '.' :: fp =>
    if fp.all pyIsDigit && !(ip.isEmpty && fp.isEmpty) then
      let v := mkRat (digitsVal ip * 10 ^ fp.length + digitsVal fp) (10 ^ fp.length)
      some (if neg then -v else v)
    else none
  | _ => none

/-- The pair-parsing loop of `upsert_items_bulk`: each comma entry must be
an `id price` pair with a numeric, positive price; the first bad entry
raises, and nothing is applied until every entry has parsed. -/
def parse_pairs : List String → Except String (List (String × ℚ))
  | [] => .ok []
  | p :: rest =>
    match pyWords p with
    | [iid, price_s] =>
      match parseDecimal price_s with
      | none => .error ("Invalid price for " ++ iid)
      | some price =>
        if price ≤ 0 then .error ("Price for " ++ iid ++ " must be > 0")
        else
          match parse_pairs rest with
          | .error e => .error e
          | .ok l => .ok ((iid, price) :: l)
    | _ => .error "Each entry must be item price"

/-- From `upsert_items_bulk`: reject blank input, split on commas, strip
and drop empty entries, parse all pairs into `changes`, and only then
apply `changes` to the item dict (all-or-nothing). -/
def upsert_items_bulk (items : ItemStore) (line : String) :
    Except String Unit × ItemStore :=
  if pyStrip line = "" then (.error "Empty input", items)
  else
    let pairs := ((pySplitComma line).map pyStrip).filter (fun p => p ≠ "")
    match parse_pairs pairs with
    | .error e => (.error e, items)
    | .ok changes =>
      (.ok (), changes.foldl (fun st p => storeSet st p.1 p.2) items)

/-- An order summary as recorded by `run_booking`. -/
structure OrderSummary where
  apartment_id : String
  nights : ℤ
  items : List (String × ℤ)
  pre_total : ℚ
  redeemed_points : ℤ
  final_total : ℚ
  earned_points : ℤ

/-- The `_orders_by_guest` dict: guest name to order list. -/
abbrev OrderStore := List (String × List OrderSummary)

/-- From `record_order`: append a summary to the guest's history,
creating the history on first use. -/
def record_order (orders : OrderStore) (guest : String)
    (summary : OrderSummary) : OrderStore :=
  storeSet orders guest (lookupD orders guest [] ++ [summary])

/-- From `get_orders_for_guest`. -/
def get_orders_for_guest (orders : OrderStore) (guest : String) :
    List OrderSummary :=
  lookupD orders guest []

/-- From `compute_total_cost`: `rate * nights`, raising on a negative
rate or a negative number of nights. -/
def compute_total_cost (rate : ℚ) (nights : ℤ) : Except String ℚ :=
  if rate < 0 then .error "Rate cannot be negative"
  else if nights < 0 then .error "Number of nights cannot be negative"
  else .ok (rate * (nights : ℚ))

/-- Python `int(x)` on a real value: truncation toward zero. -/
def pyInt (x : ℚ) : ℤ := if 0 ≤ x then ⌊x⌋ else ⌈x⌉

/-- From `points_round_half_up`: `int(amount + 0.5)`, raising on a
negative amount. -/
def points_round_half_up (amount_aud : ℚ) : Except String ℤ :=
  if amount_aud < 0 then .error "Amount cannot be negative"
  else .ok (pyInt (amount_aud + 1/2))

/-- Python `x // y` on floats: the floor of the quotient, as a float. -/
def pyFloorDiv (x y : ℚ) : ℚ := ((⌊x / y⌋ : ℤ) : ℚ)

/-- From `calc_items_subtotal`: sum `price * qty` over the ordered items;
a missing id in the price dict raises `KeyError`, modelled as `none`. -/
def calc_items_subtotal : List (String × ℤ) → ItemStore → Option ℚ
  | [], _ => some 0
  | (iid, qty) :: rest, price_lookup =>
    match lookupOpt price_lookup iid with
    | none => none
    | some price =>
      (calc_items_subtotal rest price_lookup).map
        (fun t => price * (qty : ℚ) + t)

/-- From `required_extra_beds`: 0 when the guests fit, otherwise the
deficit divided by two rounded up (`(deficit + 1) // 2`), capped at 2. -/
def required_extra_beds (num_guests capacity : ℤ) : ℤ :=
  if num_guests ≤ capacity then 0
  else min 2 ((num_guests - capacity + 1).fdiv 2)

/-- From `apply_points_redemption`: clamp negative requested blocks to 0,
cap by `guest_points // 100` and by `int(pre_total // 10)`, discount $10
per block and charge 100 points per block. -/
def apply_points_redemption (pre_total : ℚ) (guest_points redeem_blocks : ℤ) :
    ℚ × ℤ :=
  let rb := if redeem_blocks < 0 then 0 else redeem_blocks
  let max_by_points := guest_points.fdiv 100
  let max_by_total := pyInt (pyFloorDiv pre_total 10)
  let spend_blocks := min rb (min max_by_points max_by_total)
  let discount : ℚ := (spend_blocks : ℚ) * 10
  (max 0 (pre_total - discount), spend_blocks * 100)

/-- One call against the loyalty ledger. -/
inductive LedgerOp where
  | add (guest_name : String) (earned : ℤ)
  | spend (guest_name : String) (amount : ℤ)

/-- Run one ledger call. -/
def runOp (s : LedgerStore) : LedgerOp → Except String ℤ × LedgerStore
  | .add n e => add_points s n e
  | .spend n a => spend_points s n a

/-- Run a sequence of ledger calls, keeping the store each call returns
(on a raising call the store comes back unchanged). -/
def runOps (s : LedgerStore) : List LedgerOp → LedgerStore
  | [] => s
  | op :: rest => runOps (runOp s op).2 rest

/-- The spec's guard for one call: an add has a non-blank name and a
nonnegative amount; a spend has `0 ≤ amount ≤ current balance`. -/
def guardOK (s : LedgerStore) : LedgerOp → Bool
  | .add n e => decide (¬ pyStrip n = "") && decide (0 ≤ e)
  | .spend n a => decide (0 ≤ a) && decide (a ≤ get_guest_points s n)

/-- Every call of the sequence respects the guard in the state where it
actually runs. -/
def guardedRun (s : LedgerStore) : List LedgerOp → Bool
  | [] => true
  | op :: rest => guardOK s op && guardedRun (runOp s op).2 rest

/-- No call of the sequence raises. -/
def allOk (s : LedgerStore) : List LedgerOp → Prop
  | [] => True
  | op :: rest => (∃ v, (runOp s op).1 = .ok v) ∧ allOk (runOp s op).2 rest

/-- Signed contribution of one call to one guest's balance. -/
def opDelta (g : String) : LedgerOp → ℤ
  | .add n e => if n = g then e else 0
  | .spend n a => if n = g then -a else 0

/-- Running sum/difference of a call sequence for one guest. -/
def opsDelta (g : String) (ops : List LedgerOp) : ℤ :=
  (ops.map (opDelta g)).sum

/-- Every balance held in the ledger is nonnegative. -/
def nonNegStore (s : LedgerStore) : Bool :=
  s.all (fun p => decide (0 ≤ p.2))

/-- The whole mutable state of the program: the four module-level dicts. -/
structure SysState where
  guests : LedgerStore
  apartments : AptStore
  items : ItemStore
  orders : OrderStore

/-- The values the prompting layer feeds one run of `run_booking`:
the already-collected guest answers, in the order the flow asks for
them.  `confirmed_items` are the supplementary items the guest both
picked and confirmed; `redeem_blocks` is the block count accepted by the
redemption loop (that loop re-prompts until `0 ≤ blocks ≤ max_blocks`;
`apply_points_redemption` clamps to exactly those bounds itself, so
passing the field through unchecked does not add behaviours). -/
structure BookingInput where
  guest_name : String
  num_guests : ℤ
  apartment_id : String
  nights : ℤ
  accept_beds : Bool
  bed_qty : ℤ
  confirmed_items : List (String × ℤ)
  redeem_opt_in : Bool
  redeem_blocks : ℤ

/-- The supplementary-item loop of `run_booking`: look the id up in the
catalog (`items_catalog[iid]`, a `KeyError` when absent — `none` here),
skip blank ids and nonpositive quantities, and merge confirmed
quantities into the ordered-items dict. -/
def order_items_loop (items_catalog : ItemStore) :
    List (String × ℤ) → List (String × ℤ) → Option (List (String × ℤ))
  | acc, [] => some acc
  | acc, (iid, qty) :: rest =>
    match lookupOpt items_catalog iid with
    | none => none
    | some _ =>
      if iid = "" ∨ qty ≤ 0 then order_items_loop items_catalog acc rest
      else
        order_items_loop items_catalog
          (storeSet acc iid (lookupD acc iid 0 + qty)) rest

/-- From `run_booking`: one booking transaction over the whole state.
Interactive printing is dropped; every `raise` that the function's
`except` clause would catch becomes an early `(false, st)` return with
the incoming state (in the source no store has been mutated yet at any
of those points, except after `spend_points` — which is modelled
exactly, see the `add_points` arm). -/
def run_booking (st : SysState) (inp : BookingInput) : Bool × SysState :=
  let rate := get_rate st.apartments inp.apartment_id
  let capacity := get_capacity st.apartments inp.apartment_id
  let beds_needed := required_extra_beds inp.num_guests capacity
  let bedsStage : Option ℤ :=
    if 0 < beds_needed then
      if inp.accept_beds then
        if capacity + inp.bed_qty * 2 < inp.num_guests then none
        else some inp.bed_qty
      else none
    else some 0
  match bedsStage with
  | none => (false, st)
  | some extra_bed_qty =>
    match compute_total_cost rate inp.nights with
    | .error _ => (false, st)
    | .ok apt_cost =>
      let ordered₀ : List (String × ℤ) :=
        if extra_bed_qty ≠ 0 then [("extra_bed", extra_bed_qty * inp.nights)]
        else []
      match order_items_loop st.items ordered₀ inp.confirmed_items with
      | none => (false, st)
      | some ordered_items =>
        match
          (if ordered_items.isEmpty then some 0
           else calc_items_subtotal ordered_items st.items : Option ℚ) with
        | none => (false, st)
        | some supp_subtotal =>
          let pre_total := apt_cost + supp_subtotal
          let current_pts := get_guest_points st.guests inp.guest_name
          let redeemed :=
            if 100 ≤ current_pts ∧ 10 ≤ pre_total ∧ inp.redeem_opt_in then
              apply_points_redemption pre_total current_pts inp.redeem_blocks
            else (pre_total, 0)
          match points_round_half_up pre_total with
          | .error _ => (false, st)
          | .ok earned =>
            let spendStage : Option LedgerStore :=
              if redeemed.2 ≠ 0 then
                match spend_points st.guests inp.guest_name redeemed.2 with
                | (.error _, _) => none
                | (.ok _, g₁) => some g₁
              else some st.guests
            match spendStage with
            | none => (false, st)
            | some g₁ =>
              match add_points g₁ inp.guest_name earned with
              | (.error _, _) => (false, { st with guests := g₁ })
              | (.ok _, g₂) =>
                let summary : OrderSummary :=
                  ⟨inp.apartment_id, inp.nights, ordered_items, pre_total,
                    redeemed.2, redeemed.1, earned⟩
                (true,
                  { st with
                    guests := g₂
                    orders := record_order st.orders inp.guest_name summary })

/-- The spec's apartment-id format contract, written from the spec's
words (the regular expression `^U[0-9]+[A-Za-z][A-Za-z0-9]*$`): a
literal `U`, a nonempty digit run, one letter, then letters and digits
to the end of the string.  To be compared against the source-derived
scanner `is_valid_apartment_id`. -/
def matchesAptIdContract (s : String) : Prop :=
  ∃ ds c rest, s.data = 'U' :: (ds ++ c :: rest)
    ∧ ds ≠ []
    ∧ (∀ d ∈ ds, pyIsDigit d = true)
    ∧ pyIsAlpha c = true
    ∧ (∀ x ∈ rest, pyIsAlnum x = true)

/-- The claim's bad-entry condition for one comma entry of a bulk item
line: not exactly an `id price` pair, a price `float()` cannot parse,
or a nonpositive price — the three raise sites of the pair-parsing
loop of `upsert_items_bulk`. -/
def entry_invalid (p : String) : Prop :=
  match pyWords p with
  | [_, price_s] =>
    match parseDecimal price_s with
    | none => True
    | some price => price ≤ 0
  | _ => True

/-- The price the last entry of a change list assigns to an id, if any
(later entries of one bulk line override earlier ones, as in a dict). -/
def lastVal : List (String × ℚ) → String → Option ℚ
  | [], _ => none
  | (k, v) :: rest, iid =>
    match lastVal rest iid with
    | some w => some w
    | none => if k = iid then some v else none

/-! ## Theorems -/

/-- For any integer `d`, the ceiling of `d / 2` is `(d + 1) // 2`. -/
lemma ceil_half_eq (d : ℤ) : ⌈(d : ℚ) / 2⌉ = (d + 1).fdiv 2 := by
  rw [Int.fdiv_eq_ediv _ (by norm_num)]
  have h1 : ⌈(d : ℚ) / 2⌉ = -⌊((-d : ℤ) : ℚ) / ((2 : ℕ) : ℚ)⌋ := by
    rw [show (((-d : ℤ) : ℚ) / ((2 : ℕ) : ℚ)) = -((d : ℚ) / 2) by push_cast; ring,
      Int.floor_neg, neg_neg]
  rw [h1, Rat.floor_intCast_div_natCast]
  omega

/-- C4: `points_round_half_up` computes `floor(amount + 0.5)` for every
nonnegative amount (599.50 → 600, 350.4 → 350, 350.6 → 351, 0 → 0) and
raises on every negative amount. -/
theorem points_round_half_up_spec (x : ℚ) :
    (0 ≤ x → points_round_half_up x = .ok ⌊x + 1/2⌋)
    ∧ (x < 0 → ∃ e, points_round_half_up x = .error e)
    ∧ points_round_half_up 599.5 = .ok 600
    ∧ points_round_half_up 350.4 = .ok 350
    ∧ points_round_half_up 350.6 = .ok 351
    ∧ points_round_half_up 0 = .ok 0 := by
  refine ⟨fun hx => ?_, fun hx => ⟨"Amount cannot be negative", by simp [points_round_half_up, hx]⟩,
    ?_, ?_, ?_, ?_⟩
  · rw [points_round_half_up, if_neg (not_lt.mpr hx), pyInt,
      if_pos (by linarith)]
  all_goals norm_num [points_round_half_up, pyInt]

/-- C4 witness: the theorem applied at `350.4` and `-1`. -/
theorem points_round_half_up_spec_witness :
    points_round_half_up 350.4 = .ok ⌊(350.4 : ℚ) + 1/2⌋
    ∧ ∃ e, points_round_half_up (-1) = .error e :=
  ⟨(points_round_half_up_spec 350.4).1 (by norm_num),
    (points_round_half_up_spec (-1)).2.1 (by norm_num)⟩

/-- C8: `compute_total_cost` returns `rate * nights` for every
nonnegative rate and nights, and raises exactly when rate or nights is
negative (no other check). -/
theorem compute_total_cost_spec (rate : ℚ) (nights : ℤ) :
    (0 ≤ rate → 0 ≤ nights → compute_total_cost rate nights = .ok (rate * nights))
    ∧ ((rate < 0 ∨ nights < 0) → ∃ e, compute_total_cost rate nights = .error e) := by
  constructor
  · intro h1 h2
    rw [compute_total_cost, if_neg (not_lt.mpr h1),
      if_neg (not_lt.mpr (by exact_mod_cast h2))]
  · rintro (h | h)
    · exact ⟨"Rate cannot be negative", by simp [compute_total_cost, h]⟩
    · by_cases hr : rate < 0
      · exact ⟨"Rate cannot be negative", by simp [compute_total_cost, hr]⟩
      · exact ⟨"Number of nights cannot be negative",
          by simp [compute_total_cost, hr, h]⟩

/-- C8 witness: the theorem applied at rate 95, nights 3 and at
nights `-1`. -/
theorem compute_total_cost_spec_witness :
    compute_total_cost 95 3 = .ok (95 * 3)
    ∧ ∃ e, compute_total_cost 95 (-1) = .error e :=
  ⟨(compute_total_cost_spec 95 3).1 (by norm_num) (by norm_num),
    (compute_total_cost_spec 95 (-1)).2 (Or.inr (by norm_num))⟩

/-- C7: `required_extra_beds` returns 0 when the guests fit and
`min 2 ⌈(numGuests - capacity) / 2⌉` otherwise; `(5, 2) ↦ 2` and
`(4, 2) ↦ 1`. -/
theorem required_extra_beds_spec (n c : ℤ) :
    (n ≤ c → required_extra_beds n c = 0)
    ∧ (c < n → required_extra_beds n c = min 2 ⌈((n : ℚ) - (c : ℚ)) / 2⌉)
    ∧ required_extra_beds 5 2 = 2
    ∧ required_extra_beds 4 2 = 1 := by
  refine ⟨fun h => by simp [required_extra_beds, h], fun h => ?_, ?_, ?_⟩
  · rw [show ((n : ℚ) - c) / 2 = ((n - c : ℤ) : ℚ) / 2 by push_cast; ring,
      ceil_half_eq, required_extra_beds, if_neg (not_le.mpr h)]
  all_goals decide

/-- C7 witness: the theorem applied at `(5, 2)` and at the fitting case
`(3, 4)`. -/
theorem required_extra_beds_spec_witness :
    required_extra_beds 5 2 = min 2 ⌈((5 : ℚ) - (2 : ℚ)) / 2⌉
    ∧ required_extra_beds 3 4 = 0 :=
  ⟨(required_extra_beds_spec 5 2).2.1 (by norm_num),
    (required_extra_beds_spec 3 4).1 (by norm_num)⟩

/-- Python `int()` of an integer-valued float is that integer. -/
lemma pyInt_intCast (k : ℤ) : pyInt ((k : ℤ) : ℚ) = k := by
  unfold pyInt
  split
  · exact Int.floor_intCast k
  · exact Int.ceil_intCast k

/-- C1: `apply_points_redemption` clamps negative requested blocks to 0,
spends `min(requested, guestPoints // 100, floor(preTotal / 10))`
blocks, and returns `(max(0, preTotal - blocks*10), blocks*100)`;
in particular `(55, 250, 3) ↦ (35.0, 200)`. -/
theorem apply_points_redemption_spec (pre_total : ℚ)
    (guest_points redeem_blocks : ℤ)
    (h1 : 0 ≤ pre_total) (h2 : 0 ≤ guest_points) :
    (apply_points_redemption pre_total guest_points redeem_blocks =
      (max 0 (pre_total -
          ((min (max redeem_blocks 0)
              (min (guest_points.fdiv 100) ⌊pre_total / 10⌋) : ℤ) : ℚ) * 10),
        min (max redeem_blocks 0)
          (min (guest_points.fdiv 100) ⌊pre_total / 10⌋) * 100))
    ∧ apply_points_redemption 55 250 3 = (35, 200) := by
  have hclamp : ∀ rb : ℤ, (if rb < 0 then (0 : ℤ) else rb) = max rb 0 := by
    intro rb; split <;> omega
  constructor
  · simp only [apply_points_redemption, pyFloorDiv, pyInt_intCast, hclamp]
  · have hf : pyInt (pyFloorDiv 55 10) = 5 := by
      rw [pyFloorDiv, pyInt_intCast]; norm_num
    have hd : (250 : ℤ).fdiv 100 = 2 := by decide
    norm_num [apply_points_redemption, hf, hd]

/-- C1 witness: the theorem applied at `(55, 250, 3)`. -/
theorem apply_points_redemption_spec_witness :
    apply_points_redemption 55 250 3 = (35, 200) :=
  (apply_points_redemption_spec 55 250 3 (by norm_num) (by norm_num)).2

/-- C10: for nonnegative `preTotal` and a guest balance `guestPoints`,
the redemption result spends a nonnegative multiple of 100 points
bounded by the balance, the `max(0, ..)` clamp never engages
(`finalTotal = preTotal - (pointsSpent/100)*10` exactly, and is
nonnegative), and the booking flow's follow-up
`spend_points(guest, pointsSpent)` always succeeds. -/
theorem apply_points_redemption_safety (pre_total : ℚ) (gp rb : ℤ)
    (s : LedgerStore) (g : String)
    (h1 : 0 ≤ pre_total) (h2 : 0 ≤ gp) (hs : get_guest_points s g = gp) :
    0 ≤ (apply_points_redemption pre_total gp rb).2
    ∧ (apply_points_redemption pre_total gp rb).2 ≤ gp
    ∧ (100 : ℤ) ∣ (apply_points_redemption pre_total gp rb).2
    ∧ (apply_points_redemption pre_total gp rb).1 =
        pre_total - (((apply_points_redemption pre_total gp rb).2 : ℤ) : ℚ) / 100 * 10
    ∧ 0 ≤ (apply_points_redemption pre_total gp rb).1
    ∧ (spend_points s g (apply_points_redemption pre_total gp rb).2).1 =
        .ok (gp - (apply_points_redemption pre_total gp rb).2) := by
  simp only [apply_points_redemption, pyFloorDiv, pyInt_intCast]
  set rb' : ℤ := if rb < 0 then 0 else rb with hrb'
  set sb : ℤ := min rb' (min (gp.fdiv 100) ⌊pre_total / 10⌋) with hsb
  have hfd : gp.fdiv 100 = gp / 100 := Int.fdiv_eq_ediv _ (by norm_num)
  have hfl0 : 0 ≤ ⌊pre_total / 10⌋ := Int.floor_nonneg.mpr (by positivity)
  have hrb0 : 0 ≤ rb' := by rw [hrb']; split <;> omega
  have hsb0 : 0 ≤ sb := le_min hrb0 (le_min (by omega) hfl0)
  have hsb_gp : sb * 100 ≤ gp := by
    have h3 : sb ≤ gp / 100 := by rw [hsb, ← hfd]; exact le_trans (min_le_right _ _) (min_le_left _ _)
    have h4 := Int.ediv_add_emod gp 100
    have h5 := Int.emod_nonneg gp (by norm_num : (100:ℤ) ≠ 0)
    nlinarith
  have hsb_fl : sb ≤ ⌊pre_total / 10⌋ :=
    le_trans (min_le_right _ _) (min_le_right _ _)
  have hsb_pt : (sb : ℚ) * 10 ≤ pre_total := by
    have := Int.le_floor.mp hsb_fl
    rw [le_div_iff₀ (by norm_num : (0:ℚ) < 10)] at this
    exact this
  have hmax : max 0 (pre_total - (sb : ℚ) * 10) = pre_total - (sb : ℚ) * 10 :=
    max_eq_right (by linarith)
  refine ⟨by omega, hsb_gp, ⟨sb, by ring⟩, ?_, ?_, ?_⟩
  · rw [hmax]; push_cast; ring
  · rw [hmax]; linarith
  · have hb : lookupD s g 0 = gp := hs
    rw [spend_points, if_neg (by omega), hb]
    simp only [if_neg (not_lt.mpr hsb_gp)]

/-- C10 witness: the theorem applied at `preTotal = 55`,
`guestPoints = 250`, 3 requested blocks, on the ledger holding
`Alyssa ↦ 250`. -/
theorem apply_points_redemption_safety_witness :
    0 ≤ (apply_points_redemption 55 250 3).2
    ∧ (apply_points_redemption 55 250 3).2 ≤ 250
    ∧ (100 : ℤ) ∣ (apply_points_redemption 55 250 3).2
    ∧ (apply_points_redemption 55 250 3).1 =
        55 - (((apply_points_redemption 55 250 3).2 : ℤ) : ℚ) / 100 * 10
    ∧ 0 ≤ (apply_points_redemption 55 250 3).1
    ∧ (spend_points [("Alyssa", 250)] "Alyssa"
        (apply_points_redemption 55 250 3).2).1 =
        .ok (250 - (apply_points_redemption 55 250 3).2) :=
  apply_points_redemption_safety 55 250 3 [("Alyssa", 250)] "Alyssa"
    (by norm_num) (by norm_num) (by decide)

/-- C9: `get_rate` and `get_capacity` look up case-insensitively (ids
equal after lowering find the same record), and return the sentinel 0
when no stored id matches case-insensitively.  Both are total pure
functions of the store in this model: they can neither raise nor modify
the catalog. -/
theorem get_rate_capacity_spec (apts : AptStore) (id1 id2 idq : String) :
    (pyLower id1 = pyLower id2 →
      get_rate apts id1 = get_rate apts id2 ∧
      get_capacity apts id1 = get_capacity apts id2)
    ∧ ((∀ p ∈ apts, pyLower p.1 ≠ pyLower idq) →
      get_rate apts idq = 0 ∧ get_capacity apts idq = 0) := by
  constructor
  · intro h
    induction apts with
    | nil => exact ⟨rfl, rfl⟩
    | cons p rest ih =>
      obtain ⟨k, v⟩ := p
      simp only [get_rate, get_capacity, h]
      split
      · exact ⟨rfl, rfl⟩
      · exact ih
  · intro h
    induction apts with
    | nil => exact ⟨rfl, rfl⟩
    | cons p rest ih =>
      obtain ⟨k, v⟩ := p
      have hk : ¬ pyLower k = pyLower idq := h (k, v) (by simp)
      simp only [get_rate, get_capacity, if_neg hk]
      exact ih (fun p hp => h p (by simp [hp]))

/-- C9 witness: the theorem applied on the store holding `U12swan`, to
the ids `U12SWAN`/`u12Swan` and to the unknown id `U99x`. -/
theorem get_rate_capacity_spec_witness :
    (get_rate [("U12swan", ⟨95, 2⟩)] "U12SWAN" =
        get_rate [("U12swan", ⟨95, 2⟩)] "u12Swan"
      ∧ get_capacity [("U12swan", ⟨95, 2⟩)] "U12SWAN" =
        get_capacity [("U12swan", ⟨95, 2⟩)] "u12Swan")
    ∧ (get_rate [("U12swan", ⟨95, 2⟩)] "U99x" = 0
      ∧ get_capacity [("U12swan", ⟨95, 2⟩)] "U99x" = 0) :=
  ⟨(get_rate_capacity_spec [("U12swan", ⟨95, 2⟩)] "U12SWAN" "u12Swan" "").1
      (by decide),
    (get_rate_capacity_spec [("U12swan", ⟨95, 2⟩)] "" "" "U99x").2
      (by decide)⟩

/-- Setting a key then reading gives the new value for that key and the
old value for every other key. -/
lemma lookupD_storeSet {α : Type} (s : List (String × α)) (n g : String)
    (v d : α) :
    lookupD (storeSet s n v) g d = if n = g then v else lookupD s g d := by
  induction s with
  | nil => by_cases h : n = g <;> simp [storeSet, lookupD, h]
  | cons p rest ih =>
    obtain ⟨k, w⟩ := p
    by_cases hk : k = n
    · subst hk
      by_cases hg : k = g <;> simp [storeSet, lookupD, hg]
    · by_cases hg : k = g
      · subst hg
        have hng : ¬ n = k := fun h => hk h.symm
        simp [storeSet, lookupD, hk, hng]
      · simp [storeSet, lookupD, hk, hg, ih]

/-- A store of nonnegative balances reads nonnegative everywhere. -/
lemma lookupD_nonneg : ∀ (s : LedgerStore), nonNegStore s = true →
    ∀ g, 0 ≤ lookupD s g 0
  | [], _, g => by simp [lookupD]
  | (k, v) :: rest, h, g => by
    simp only [nonNegStore, List.all_cons, Bool.and_eq_true,
      decide_eq_true_eq] at h
    simp only [lookupD]
    split
    · exact h.1
    · exact lookupD_nonneg rest (by simpa [nonNegStore] using h.2) g

/-- Writing a nonnegative balance preserves store nonnegativity. -/
lemma nonNegStore_storeSet : ∀ (s : LedgerStore) (n : String) (v : ℤ),
    nonNegStore s = true → 0 ≤ v → nonNegStore (storeSet s n v) = true
  | [], n, v, _, hv => by simp [storeSet, nonNegStore, hv]
  | (k, w) :: rest, n, v, h, hv => by
    simp only [nonNegStore, List.all_cons, Bool.and_eq_true,
      decide_eq_true_eq] at h
    simp only [storeSet]
    split
    · simp only [nonNegStore, List.all_cons, Bool.and_eq_true,
        decide_eq_true_eq]
      exact ⟨hv, by simpa [nonNegStore] using h.2⟩
    · simp only [nonNegStore, List.all_cons, Bool.and_eq_true,
        decide_eq_true_eq]
      exact ⟨h.1, by simpa [nonNegStore] using
        nonNegStore_storeSet rest n v (by simpa [nonNegStore] using h.2) hv⟩

/-- One guarded ledger call succeeds, keeps every balance nonnegative,
and moves each guest's balance by exactly the call's signed amount. -/
lemma runOp_guard (s : LedgerStore) (op : LedgerOp)
    (h0 : nonNegStore s = true) (hop : guardOK s op = true) :
    (∃ v, (runOp s op).1 = .ok v)
    ∧ nonNegStore (runOp s op).2 = true
    ∧ ∀ g, get_guest_points (runOp s op).2 g =
        get_guest_points s g + opDelta g op := by
  cases op with
  | add n e =>
    simp only [guardOK, Bool.and_eq_true, decide_eq_true_eq] at hop
    obtain ⟨hn, he⟩ := hop
    have hrun : runOp s (.add n e) =
        (.ok (lookupD s n 0 + e), storeSet s n (lookupD s n 0 + e)) := by
      rw [runOp, add_points, if_neg hn, if_neg (not_lt.mpr he)]
    rw [hrun]
    refine ⟨⟨_, rfl⟩,
      nonNegStore_storeSet _ _ _ h0 (by have := lookupD_nonneg s h0 n; omega),
      fun g => ?_⟩
    simp only [get_guest_points, opDelta, lookupD_storeSet]
    split
    · next hng => rw [hng]
    · ring
  | spend n a =>
    simp only [guardOK, Bool.and_eq_true, decide_eq_true_eq] at hop
    obtain ⟨ha, hab⟩ := hop
    have hab' : ¬ lookupD s n 0 < a := not_lt.mpr hab
    have hrun : runOp s (.spend n a) =
        (.ok (lookupD s n 0 - a), storeSet s n (lookupD s n 0 - a)) := by
      rw [runOp, spend_points, if_neg (not_lt.mpr ha), if_neg hab']
    rw [hrun]
    refine ⟨⟨_, rfl⟩,
      nonNegStore_storeSet _ _ _ h0 (by omega),
      fun g => ?_⟩
    simp only [get_guest_points, opDelta, lookupD_storeSet]
    split
    · next hng => rw [hng]; ring
    · ring

/-- Guarded sequences run without raising, keep every balance
nonnegative, and move each balance by the sum of its signed amounts. -/
lemma ledger_core : ∀ (ops : List LedgerOp) (s : LedgerStore),
    nonNegStore s = true → guardedRun s ops = true →
    allOk s ops ∧ nonNegStore (runOps s ops) = true ∧
      ∀ g, get_guest_points (runOps s ops) g =
        get_guest_points s g + opsDelta g ops
  | [], s, h0, _ =>
    ⟨trivial, h0, fun g => by simp [runOps, opsDelta]⟩
  | op :: rest, s, h0, hg => by
    simp only [guardedRun, Bool.and_eq_true] at hg
    obtain ⟨hop, hrest⟩ := hg
    obtain ⟨hok, h0', hmove⟩ := runOp_guard s op h0 hop
    obtain ⟨ih1, ih2, ih3⟩ := ledger_core rest (runOp s op).2 h0' hrest
    refine ⟨⟨hok, ih1⟩, ih2, fun g => ?_⟩
    show get_guest_points (runOps (runOp s op).2 rest) g = _
    rw [ih3 g, hmove g]
    simp only [opsDelta, List.map_cons, List.sum_cons]
    ring

/-- A prefix of a guarded sequence is guarded. -/
lemma guardedRun_take : ∀ (ops : List LedgerOp) (s : LedgerStore) (i : ℕ),
    guardedRun s ops = true → guardedRun s (ops.take i) = true
  | [], _, i, h => by simpa [List.take_nil] using h
  | _ :: _, _, 0, _ => rfl
  | op :: rest, s, i + 1, h => by
    simp only [guardedRun, Bool.and_eq_true] at h
    simp only [List.take_succ_cons, guardedRun, Bool.and_eq_true]
    exact ⟨h.1, guardedRun_take rest _ i h.2⟩

/-- C2: under the guards (non-blank name and nonnegative amount for
every add, `0 ≤ amount ≤ current balance` for every spend) no call of
the sequence raises, after every prefix each guest's balance equals the
starting balance plus the running signed sum of the amounts and is
nonnegative; and a spend whose amount is negative or exceeds the
current balance raises and leaves the ledger unchanged. -/
theorem ledger_balance_spec (s : LedgerStore) (ops : List LedgerOp)
    (h0 : nonNegStore s = true) (hg : guardedRun s ops = true) :
    allOk s ops
    ∧ (∀ g i, get_guest_points (runOps s (ops.take i)) g =
        get_guest_points s g + opsDelta g (ops.take i))
    ∧ (∀ g i, 0 ≤ get_guest_points (runOps s (ops.take i)) g)
    ∧ (∀ n a, (a < 0 ∨ get_guest_points s n < a) →
        (∃ e, (spend_points s n a).1 = .error e) ∧ (spend_points s n a).2 = s) := by
  refine ⟨(ledger_core ops s h0 hg).1, fun g i => ?_, fun g i => ?_,
    fun n a h => ?_⟩
  · exact (ledger_core (ops.take i) s h0 (guardedRun_take ops s i hg)).2.2 g
  · exact lookupD_nonneg _
      (ledger_core (ops.take i) s h0 (guardedRun_take ops s i hg)).2.1 g
  · by_cases ha : a < 0
    · exact ⟨⟨"Points to spend cannot be negative",
        by rw [spend_points, if_pos ha]⟩, by rw [spend_points, if_pos ha]⟩
    · have hb : lookupD s n 0 < a := by
        rcases h with h | h
        · omega
        · exact h
      exact ⟨⟨"Insufficient points",
          by rw [spend_points, if_neg ha, if_pos hb]⟩,
        by rw [spend_points, if_neg ha, if_pos hb]⟩

/-- C2 witness: the theorem applied to the ledger `Alyssa ↦ 300` and the
sequence add 55 then spend 200, plus the raising spend of 400. -/
theorem ledger_balance_spec_witness :
    allOk [("Alyssa", 300)] [.add "Alyssa" 55, .spend "Alyssa" 200]
    ∧ ((∃ e, (spend_points [("Alyssa", 300)] "Alyssa" 400).1 = .error e)
      ∧ (spend_points [("Alyssa", 300)] "Alyssa" 400).2 = [("Alyssa", 300)]) :=
  ⟨(ledger_balance_spec [("Alyssa", 300)]
      [.add "Alyssa" 55, .spend "Alyssa" 200] (by decide) (by decide)).1,
    (ledger_balance_spec [("Alyssa", 300)] [] (by decide) (by decide)).2.2.2
      "Alyssa" 400 (Or.inr (by decide))⟩

/-- Setting a key then optionally reading gives the new value for that
key and the old answer for every other key. -/
lemma lookupOpt_storeSet {α : Type} (s : List (String × α)) (n g : String)
    (v : α) :
    lookupOpt (storeSet s n v) g = if n = g then some v else lookupOpt s g := by
  induction s with
  | nil => by_cases h : n = g <;> simp [storeSet, lookupOpt, h]
  | cons p rest ih =>
    obtain ⟨k, w⟩ := p
    by_cases hk : k = n
    · subst hk
      by_cases hg : k = g <;> simp [storeSet, lookupOpt, hg]
    · by_cases hg : k = g
      · subst hg
        have hng : ¬ n = k := fun h => hk h.symm
        simp [storeSet, lookupOpt, hk, hng]
      · simp [storeSet, lookupOpt, hk, hg, ih]

/-- Folding a change list over the catalog binds each changed id to its
last change and leaves every other id's answer unchanged. -/
lemma lookupOpt_foldl_storeSet :
    ∀ (changes : List (String × ℚ)) (items : ItemStore) (k : String),
    lookupOpt (changes.foldl (fun st p => storeSet st p.1 p.2) items) k =
      match lastVal changes k with
      | some w => some w
      | none => lookupOpt items k
  | [], items, k => by simp [lastVal]
  | q :: rest, items, k => by
    obtain ⟨qk, qv⟩ := q
    rw [List.foldl_cons,
      lookupOpt_foldl_storeSet rest (storeSet items qk qv) k]
    cases hlv : lastVal rest k with
    | some w => simp [lastVal, hlv]
    | none =>
      simp only [lastVal, hlv, lookupOpt_storeSet]
      by_cases hqk : qk = k <;> simp [hqk]

/-- A list of entries none of which is bad parses completely. -/
lemma parse_pairs_ok_of_valid :
    ∀ (ps : List String), (∀ p ∈ ps, ¬ entry_invalid p) →
    ∃ changes, parse_pairs ps = .ok changes
  | [], _ => ⟨[], rfl⟩
  | p :: rest, h => by
    have hp : ¬ entry_invalid p := h p (by simp)
    obtain ⟨changes, hc⟩ :=
      parse_pairs_ok_of_valid rest (fun q hq => h q (by simp [hq]))
    cases hw : pyWords p with
    | nil => exact absurd (by simp [entry_invalid, hw]) hp
    | cons a t =>
      cases t with
      | nil => exact absurd (by simp [entry_invalid, hw]) hp
      | cons b t2 =>
        cases t2 with
        | nil =>
          cases hd : parseDecimal b with
          | none => exact absurd (by simp [entry_invalid, hw, hd]) hp
          | some v =>
            by_cases hv : v ≤ 0
            · exact absurd (by simpa [entry_invalid, hw, hd] using hv) hp
            · exact ⟨(a, v) :: changes,
                by simp [parse_pairs, hw, hd, if_neg hv, hc]⟩
        | cons c t3 => exact absurd (by simp [entry_invalid, hw]) hp

/-- One bad entry anywhere in the list makes the parsing loop raise. -/
lemma parse_pairs_error_of_invalid :
    ∀ (ps : List String) (p : String), p ∈ ps → entry_invalid p →
    ∃ e, parse_pairs ps = .error e
  | [], p, hp, _ => absurd hp (by simp)
  | p₀ :: rest, p, hp, hinv => by
    rcases List.mem_cons.mp hp with rfl | hmem
    · cases hw : pyWords p with
      | nil => exact ⟨"Each entry must be item price", by simp [parse_pairs, hw]⟩
      | cons a t =>
        cases t with
        | nil =>
          exact ⟨"Each entry must be item price", by simp [parse_pairs, hw]⟩
        | cons b t2 =>
          cases t2 with
          | nil =>
            cases hd : parseDecimal b with
            | none =>
              exact ⟨"Invalid price for " ++ a, by simp [parse_pairs, hw, hd]⟩
            | some v =>
              have hv : v ≤ 0 := by simpa [entry_invalid, hw, hd] using hinv
              exact ⟨"Price for " ++ a ++ " must be > 0",
                by simp [parse_pairs, hw, hd, if_pos hv]⟩
          | cons c t3 =>
            exact ⟨"Each entry must be item price", by simp [parse_pairs, hw]⟩
    · obtain ⟨e, he⟩ := parse_pairs_error_of_invalid rest p hmem hinv
      cases hw : pyWords p₀ with
      | nil => exact ⟨"Each entry must be item price", by simp [parse_pairs, hw]⟩
      | cons a t =>
        cases t with
        | nil =>
          exact ⟨"Each entry must be item price", by simp [parse_pairs, hw]⟩
        | cons b t2 =>
          cases t2 with
          | nil =>
            cases hd : parseDecimal b with
            | none =>
              exact ⟨"Invalid price for " ++ a, by simp [parse_pairs, hw, hd]⟩
            | some v =>
              by_cases hv : v ≤ 0
              · exact ⟨"Price for " ++ a ++ " must be > 0",
                  by simp [parse_pairs, hw, hd, if_pos hv]⟩
              · exact ⟨e, by simp [parse_pairs, hw, hd, if_neg hv, he]⟩
          | cons c t3 =>
            exact ⟨"Each entry must be item price", by simp [parse_pairs, hw]⟩

/-- C5: `upsert_items_bulk` is all-or-nothing: any raising call leaves
the item catalog exactly as it was (in particular on blank input); any
bad entry of the line — not an `id price` pair, a non-numeric price, or
a nonpositive price — makes the whole call raise with the catalog
unchanged; a line all of whose entries are valid succeeds and applies
every parsed pair (last entry winning per id, all other ids untouched).
Examples: `"toothpaste 5.2, shampoo 8.2"` stores both prices, while
`"toothpaste 5.2, badrow"` raises and stores nothing. -/
theorem upsert_items_bulk_spec (items : ItemStore) (line : String) :
    ((∃ e, (upsert_items_bulk items line).1 = .error e) →
        (upsert_items_bulk items line).2 = items)
    ∧ (pyStrip line = "" → ∃ e, (upsert_items_bulk items line).1 = .error e)
    ∧ ((upsert_items_bulk items "toothpaste 5.2, shampoo 8.2").1 = .ok ()
        ∧ lookupOpt (upsert_items_bulk items "toothpaste 5.2, shampoo 8.2").2
            "toothpaste" = some (26/5)
        ∧ lookupOpt (upsert_items_bulk items "toothpaste 5.2, shampoo 8.2").2
            "shampoo" = some (41/5))
    ∧ ((∃ e, (upsert_items_bulk items "toothpaste 5.2, badrow").1 = .error e)
        ∧ (upsert_items_bulk items "toothpaste 5.2, badrow").2 = items)
    ∧ (∀ p ∈ ((pySplitComma line).map pyStrip).filter (fun p => p ≠ ""),
        entry_invalid p →
        (∃ e, (upsert_items_bulk items line).1 = .error e)
        ∧ (upsert_items_bulk items line).2 = items)
    ∧ (¬ pyStrip line = "" →
        (∀ p ∈ ((pySplitComma line).map pyStrip).filter (fun p => p ≠ ""),
          ¬ entry_invalid p) →
        ∃ changes,
          parse_pairs (((pySplitComma line).map pyStrip).filter
            (fun p => p ≠ "")) = .ok changes
          ∧ (upsert_items_bulk items line).1 = .ok ()
          ∧ (∀ k w, lastVal changes k = some w →
              lookupOpt (upsert_items_bulk items line).2 k = some w)
          ∧ (∀ k, lastVal changes k = none →
              lookupOpt (upsert_items_bulk items line).2 k =
                lookupOpt items k)) := by
  have hrun : upsert_items_bulk items "toothpaste 5.2, shampoo 8.2" =
      (.ok (), storeSet (storeSet items "toothpaste" (mkRat 26 5))
        "shampoo" (mkRat 41 5)) := by
    have hparse : parse_pairs
        (((pySplitComma "toothpaste 5.2, shampoo 8.2").map pyStrip).filter
          (fun p => p ≠ "")) =
        .ok [("toothpaste", mkRat 26 5), ("shampoo", mkRat 41 5)] := rfl
    simp only [upsert_items_bulk,
      if_neg (show ¬ pyStrip "toothpaste 5.2, shampoo 8.2" = "" by decide),
      hparse, List.foldl]
  have hbad : upsert_items_bulk items "toothpaste 5.2, badrow" =
      (.error "Each entry must be item price", items) := by
    have hparse : parse_pairs
        (((pySplitComma "toothpaste 5.2, badrow").map pyStrip).filter
          (fun p => p ≠ "")) =
        .error "Each entry must be item price" := rfl
    simp only [upsert_items_bulk,
      if_neg (show ¬ pyStrip "toothpaste 5.2, badrow" = "" by decide), hparse]
  refine ⟨?_, fun h => ⟨"Empty input", by rw [upsert_items_bulk, if_pos h]⟩,
    ⟨by rw [hrun], ?_, ?_⟩,
    ⟨⟨"Each entry must be item price", by rw [hbad]⟩, by rw [hbad]⟩,
    ?_, ?_⟩
  · rintro ⟨e, he⟩
    by_cases h : pyStrip line = ""
    · rw [upsert_items_bulk, if_pos h]
    · rw [upsert_items_bulk, if_neg h] at he ⊢
      cases hp : parse_pairs
          (((pySplitComma line).map pyStrip).filter (fun p => p ≠ "")) with
      | error e' => simp only [hp]
      | ok l =>
        simp only [hp] at he
        exact absurd he (by simp)
  · rw [hrun]
    simp only [lookupOpt_storeSet, if_neg (show ¬"shampoo" = "toothpaste" by decide),
      if_pos rfl]
    norm_num [Rat.mkRat_eq_div]
  · rw [hrun]
    simp only [lookupOpt_storeSet, if_pos rfl]
    norm_num [Rat.mkRat_eq_div]
  · intro p hmem hinv
    by_cases h : pyStrip line = ""
    · exact ⟨⟨"Empty input", by rw [upsert_items_bulk, if_pos h]⟩,
        by rw [upsert_items_bulk, if_pos h]⟩
    · obtain ⟨e, he⟩ := parse_pairs_error_of_invalid _ p hmem hinv
      have hfull : upsert_items_bulk items line = (.error e, items) := by
        simp only [upsert_items_bulk, if_neg h, he]
      exact ⟨⟨e, by rw [hfull]⟩, by rw [hfull]⟩
  · intro hblank hvalid
    obtain ⟨changes, hc⟩ := parse_pairs_ok_of_valid _ hvalid
    have hfull : upsert_items_bulk items line =
        (.ok (), changes.foldl (fun st p => storeSet st p.1 p.2) items) := by
      simp only [upsert_items_bulk, if_neg hblank, hc]
    refine ⟨changes, hc, by rw [hfull], fun k w hlw => ?_, fun k hln => ?_⟩
    · rw [hfull]
      show lookupOpt (changes.foldl (fun st p => storeSet st p.1 p.2) items) k
        = some w
      rw [lookupOpt_foldl_storeSet changes items k, hlw]
    · rw [hfull]
      show lookupOpt (changes.foldl (fun st p => storeSet st p.1 p.2) items) k
        = lookupOpt items k
      rw [lookupOpt_foldl_storeSet changes items k, hln]

/-- C5 witness: the theorem applied to the starting one-item catalog. -/
theorem upsert_items_bulk_spec_witness :
    (upsert_items_bulk [("car_park", 25)] "toothpaste 5.2, badrow").2 =
      [("car_park", 25)] :=
  (upsert_items_bulk_spec [("car_park", 25)] "toothpaste 5.2, badrow").1
    ((upsert_items_bulk_spec [("car_park", 25)] "toothpaste 5.2, badrow").2.2.2.1.1)

/-- An ASCII letter is not an ASCII digit. -/
lemma pyIsAlpha_not_digit {c : Char} (h : pyIsAlpha c = true) :
    pyIsDigit c = false := by
  cases hd : pyIsDigit c
  · rfl
  · exfalso
    simp only [pyIsAlpha, pyIsDigit, Bool.or_eq_true, Bool.and_eq_true,
      decide_eq_true_eq] at h hd
    omega

/-- An ASCII letter is alphanumeric. -/
lemma pyIsAlpha_alnum {c : Char} (h : pyIsAlpha c = true) :
    pyIsAlnum c = true := by
  simp [pyIsAlnum, h]

/-- A greedy scan over `l1 ++ c :: l2` stops exactly at `c` when all of
`l1` satisfies the scanned class and `c` does not. -/
lemma takeWhile_all_append {p : Char → Bool} :
    ∀ (l1 : List Char) {c : Char} (l2 : List Char),
    (∀ x ∈ l1, p x = true) → p c = false →
    ((l1 ++ c :: l2).takeWhile p = l1 ∧ (l1 ++ c :: l2).dropWhile p = c :: l2)
  | [], c, l2, _, hc => by
    simp [List.takeWhile_cons, List.dropWhile_cons, hc]
  | a :: l1, c, l2, h, hc => by
    have ha : p a = true := h a (by simp)
    have ih := takeWhile_all_append l1 l2 (fun x hx => h x (by simp [hx])) hc
    simp [List.takeWhile_cons, List.dropWhile_cons, ha, ih.1, ih.2]

/-- The source's greedy scanner accepts exactly the ids matching the
spec's pattern `^U[0-9]+[A-Za-z][A-Za-z0-9]*$`. -/
lemma is_valid_iff_contract (s : String) :
    is_valid_apartment_id s = true ↔ matchesAptIdContract s := by
  rw [is_valid_apartment_id]
  constructor
  · intro h
    cases hd : s.data with
    | nil => rw [hd] at h; exact absurd h (by simp [validIdScan])
    | cons c0 rest =>
      rw [hd] at h
      by_cases hU : c0 = 'U'
      · subst hU
        rw [validIdScan, if_neg (by simp)] at h
        by_cases hds : (rest.takeWhile pyIsDigit).isEmpty = true
        · rw [if_pos hds] at h; exact absurd h (by simp)
        · rw [if_neg hds] at h
          cases hdrop : rest.dropWhile pyIsDigit with
          | nil => rw [hdrop] at h; exact absurd h (by simp)
          | cons c rest3 =>
            rw [hdrop] at h
            simp only [Bool.and_eq_true, List.all_cons, List.all_eq_true] at h
            have hrest : rest = rest.takeWhile pyIsDigit ++ (c :: rest3) := by
              conv_lhs => rw [← List.takeWhile_append_dropWhile
                (p := pyIsDigit) (l := rest)]
              rw [hdrop]
            refine ⟨rest.takeWhile pyIsDigit, c, rest3, ?_,
              fun hnil => hds (by simp [hnil]),
              fun d hdm => List.mem_takeWhile_imp hdm, h.1,
              fun x hx => h.2.2 x hx⟩
            rw [hd]
            exact congrArg (List.cons 'U') hrest
      · rw [validIdScan, if_pos hU] at h
        exact absurd h (by simp)
  · rintro ⟨ds, c, rest, hdata, hne, hdig, halpha, halnum⟩
    obtain ⟨ht, hdr⟩ :=
      takeWhile_all_append ds rest hdig (pyIsAlpha_not_digit halpha)
    rw [hdata, validIdScan, if_neg (by simp), ht, hdr,
      if_neg (by simpa [List.isEmpty_iff] using hne)]
    simp only [Bool.and_eq_true, List.all_cons, List.all_eq_true]
    exact ⟨halpha, pyIsAlpha_alnum halpha, fun x hx => halnum x hx⟩

/-- Overwriting the same key twice is the same as writing it once. -/
lemma storeSet_storeSet {α : Type} :
    ∀ (s : List (String × α)) (k : String) (v v' : α),
    storeSet (storeSet s k v) k v' = storeSet s k v'
  | [], k, v, v' => by simp [storeSet]
  | (k', w) :: rest, k, v, v' => by
    by_cases hk : k' = k
    · subst hk; simp [storeSet]
    · simp [storeSet, hk, storeSet_storeSet rest k v v']

/-- Writing a key makes its binding count `max 1 (previous count)`. -/
lemma countKey_storeSet {α : Type} :
    ∀ (s : List (String × α)) (k : String) (v : α),
    countKey (storeSet s k v) k = max 1 (countKey s k)
  | [], k, v => by simp [storeSet, countKey, List.countP_cons]
  | (k', w) :: rest, k, v => by
    by_cases hk : k' = k
    · subst hk
      simp [storeSet, countKey, List.countP_cons]
    · have := countKey_storeSet rest k v
      simp only [countKey] at this
      simp only [storeSet, if_neg hk, countKey, List.countP_cons,
        decide_eq_true_eq, if_neg hk, this]
      omega

/-- A dict with pairwise distinct keys binds any key at most once. -/
lemma countKey_le_one_of_nodup {α : Type} :
    ∀ (s : List (String × α)) (k : String),
    (s.map Prod.fst).Nodup → countKey s k ≤ 1
  | [], k, _ => by simp [countKey]
  | (k', w) :: rest, k, h => by
    simp only [List.map_cons, List.nodup_cons] at h
    by_cases hk : k' = k
    · subst hk
      have hz : countKey rest k' = 0 := by
        rw [countKey, List.countP_eq_zero]
        intro p hp hpk
        have hp1 : p.1 = k' := by simpa using hpk
        exact h.1 (hp1 ▸ List.mem_map_of_mem Prod.fst hp)
      simp [countKey, List.countP_cons, hz]
      exact fun a b hab hak => h.1 (hak ▸ List.mem_map_of_mem Prod.fst hab)
    · have := countKey_le_one_of_nodup rest k h.2
      simpa [countKey, List.countP_cons, hk] using this

/-- C6: `upsert_apartment` raises exactly when the id fails the pattern
`^U[0-9]+[A-Za-z][A-Za-z0-9]*$` or the rate or capacity is
nonpositive; on valid input it succeeds, stores exactly
`{rate, capacity}` under the id, and a second identical call changes
nothing and leaves exactly one binding for the id. -/
theorem upsert_apartment_spec (apts : AptStore) (idq : String)
    (rate : ℚ) (cap : ℤ) :
    ((∃ e, (upsert_apartment apts idq rate cap).1 = .error e) ↔
      (¬ matchesAptIdContract idq ∨ rate ≤ 0 ∨ cap ≤ 0))
    ∧ (matchesAptIdContract idq → 0 < rate → 0 < cap →
        (upsert_apartment apts idq rate cap).1 = .ok ()
        ∧ lookupOpt (upsert_apartment apts idq rate cap).2 idq =
            some ⟨rate, cap⟩
        ∧ (upsert_apartment (upsert_apartment apts idq rate cap).2
            idq rate cap).2 = (upsert_apartment apts idq rate cap).2
        ∧ ((apts.map Prod.fst).Nodup →
            countKey (upsert_apartment (upsert_apartment apts idq rate cap).2
              idq rate cap).2 idq = 1)) := by
  constructor
  · constructor
    · rintro ⟨e, he⟩
      by_cases hv : is_valid_apartment_id idq = true
      · rw [upsert_apartment, if_neg (not_not_intro hv)] at he
        by_cases hr : rate ≤ 0
        · exact Or.inr (Or.inl hr)
        · by_cases hc : cap ≤ 0
          · exact Or.inr (Or.inr hc)
          · rw [if_neg hr, if_neg hc] at he
            exact absurd he (by simp)
      · exact Or.inl (fun hm => hv ((is_valid_iff_contract idq).mpr hm))
    · intro h
      by_cases hv : is_valid_apartment_id idq = true
      · have hm : matchesAptIdContract idq := (is_valid_iff_contract idq).mp hv
        have hrc : rate ≤ 0 ∨ cap ≤ 0 := by
          rcases h with h | h | h
          · exact absurd hm h
          · exact Or.inl h
          · exact Or.inr h
        rcases hrc with hr | hc
        · by_cases hr0 : rate ≤ 0
          · exact ⟨"Rate must be positive",
              by rw [upsert_apartment, if_neg (not_not_intro hv), if_pos hr0]⟩
          · exact absurd hr hr0
        · by_cases hr0 : rate ≤ 0
          · exact ⟨"Rate must be positive",
              by rw [upsert_apartment, if_neg (not_not_intro hv), if_pos hr0]⟩
          · exact ⟨"Capacity must be positive",
              by rw [upsert_apartment, if_neg (not_not_intro hv),
                if_neg hr0, if_pos hc]⟩
      · exact ⟨"Invalid apartment id format (e.g., U12swan)",
          by rw [upsert_apartment, if_pos hv]⟩
  · intro hm hr hc
    have hv : is_valid_apartment_id idq = true :=
      (is_valid_iff_contract idq).mpr hm
    have h1 : upsert_apartment apts idq rate cap =
        (.ok (), storeSet apts idq ⟨rate, cap⟩) := by
      rw [upsert_apartment, if_neg (not_not_intro hv),
        if_neg (not_le.mpr hr), if_neg (not_le.mpr hc)]
    have h2 : upsert_apartment (storeSet apts idq ⟨rate, cap⟩) idq rate cap =
        (.ok (), storeSet (storeSet apts idq ⟨rate, cap⟩) idq ⟨rate, cap⟩) := by
      rw [upsert_apartment, if_neg (not_not_intro hv),
        if_neg (not_le.mpr hr), if_neg (not_le.mpr hc)]
    refine ⟨by rw [h1], by rw [h1]; simp [lookupOpt_storeSet], ?_, ?_⟩
    · rw [h1, h2, storeSet_storeSet]
    · intro hnd
      rw [h1, h2, storeSet_storeSet, countKey_storeSet]
      have := countKey_le_one_of_nodup apts idq hnd
      omega

/-- C6 witness: the theorem applied at `U12swan`, rate 95, capacity 2 on
the empty store. -/
theorem upsert_apartment_spec_witness :
    (upsert_apartment [] "U12swan" 95 2).1 = .ok ()
    ∧ lookupOpt (upsert_apartment [] "U12swan" 95 2).2 "U12swan" =
        some ⟨95, 2⟩
    ∧ (upsert_apartment (upsert_apartment [] "U12swan" 95 2).2
        "U12swan" 95 2).2 = (upsert_apartment [] "U12swan" 95 2).2
    ∧ ((([] : AptStore).map Prod.fst).Nodup →
        countKey (upsert_apartment (upsert_apartment [] "U12swan" 95 2).2
          "U12swan" 95 2).2 "U12swan" = 1) :=
  (upsert_apartment_spec [] "U12swan" 95 2).2
    ⟨['1', '2'], 's', ['w', 'a', 'n'], by decide, by decide, by decide,
      by decide, by decide⟩
    (by norm_num) (by norm_num)

/-- A value actually returned by `points_round_half_up` is nonnegative
(the amount was nonnegative, else it would have raised). -/
lemma points_round_half_up_ok_nonneg {x : ℚ} {v : ℤ}
    (hok : points_round_half_up x = .ok v) : 0 ≤ v := by
  rw [points_round_half_up] at hok
  split at hok
  · exact absurd hok (by simp)
  · next hx =>
    have hv : pyInt (x + 1/2) = v := by simpa using hok
    have hx0 : 0 ≤ x := not_lt.mp hx
    rw [pyInt, if_pos (by linarith)] at hv
    rw [← hv]
    exact Int.floor_nonneg.mpr (by linarith)

/-- `add_points` succeeds on a non-blank name and nonnegative amount. -/
lemma add_points_ok (s : LedgerStore) (n : String) (e : ℤ)
    (hn : ¬ pyStrip n = "") (he : 0 ≤ e) :
    add_points s n e =
      (.ok (lookupD s n 0 + e), storeSet s n (lookupD s n 0 + e)) := by
  rw [add_points, if_neg hn, if_neg (not_lt.mpr he)]

/-- C3: with the one fact the prompting layer guarantees (a non-blank
guest name), every failing run of `run_booking` returns the state it
started from — the ledger, both catalogs and the order history are
untouched; declining needed beds, or adding beds that still leave the
capacity short, are such failing runs.  Stores change only on a
completed transaction. -/
theorem run_booking_abort_frame (st : SysState) (inp : BookingInput)
    (h : ¬ pyStrip inp.guest_name = "") :
    ((run_booking st inp).1 = false → (run_booking st inp).2 = st)
    ∧ (0 < required_extra_beds inp.num_guests
          (get_capacity st.apartments inp.apartment_id) →
        inp.accept_beds = false →
        (run_booking st inp).1 = false ∧ (run_booking st inp).2 = st)
    ∧ (0 < required_extra_beds inp.num_guests
          (get_capacity st.apartments inp.apartment_id) →
        inp.accept_beds = true →
        get_capacity st.apartments inp.apartment_id + inp.bed_qty * 2 <
          inp.num_guests →
        (run_booking st inp).1 = false ∧ (run_booking st inp).2 = st) := by
  have master : run_booking st inp = (false, st) ∨
      (run_booking st inp).1 = true := by
    simp only [run_booking]
    split
    · exact Or.inl rfl
    · split
      · exact Or.inl rfl
      · split
        · exact Or.inl rfl
        · split
          · exact Or.inl rfl
          · split
            · exact Or.inl rfl
            · next earned hpr =>
              have he := points_round_half_up_ok_nonneg hpr
              split
              · exact Or.inl rfl
              · next g₁ hspend =>
                rw [add_points_ok g₁ inp.guest_name earned h he]
                exact Or.inr rfl
  refine ⟨fun hf => ?_, fun hb hacc => ?_, fun hb hacc hcap => ?_⟩
  · rcases master with hm | hm
    · rw [hm]
    · rw [hm] at hf; exact absurd hf (by simp)
  · have hnone : (if 0 < required_extra_beds inp.num_guests
          (get_capacity st.apartments inp.apartment_id) then
        if inp.accept_beds then
          (if get_capacity st.apartments inp.apartment_id +
              inp.bed_qty * 2 < inp.num_guests then none
            else some inp.bed_qty)
        else none
      else some 0 : Option ℤ) = none := by
      rw [if_pos hb, hacc]
      rfl
    simp only [run_booking, hnone]
    exact ⟨trivial, trivial⟩
  · have hnone : (if 0 < required_extra_beds inp.num_guests
          (get_capacity st.apartments inp.apartment_id) then
        if inp.accept_beds then
          (if get_capacity st.apartments inp.apartment_id +
              inp.bed_qty * 2 < inp.num_guests then none
            else some inp.bed_qty)
        else none
      else some 0 : Option ℤ) = none := by
      rw [if_pos hb, hacc, if_pos rfl, if_pos hcap]
    simp only [run_booking, hnone]
    exact ⟨trivial, trivial⟩

/-- C3 witness: the theorem applied to a concrete state and a run in
which the guest brings 5 people to a 2-bed apartment and declines
extra beds. -/
theorem run_booking_abort_frame_witness :
    (run_booking ⟨[("Alyssa", 300)], [("U1a", ⟨95, 2⟩)], [("extra_bed", 30)], []⟩
        ⟨"Alyssa", 5, "U1a", 3, false, 0, [], false, 0⟩).1 = false
    ∧ (run_booking ⟨[("Alyssa", 300)], [("U1a", ⟨95, 2⟩)], [("extra_bed", 30)], []⟩
        ⟨"Alyssa", 5, "U1a", 3, false, 0, [], false, 0⟩).2 =
      ⟨[("Alyssa", 300)], [("U1a", ⟨95, 2⟩)], [("extra_bed", 30)], []⟩ :=
  (run_booking_abort_frame _ _ (by decide)).2.1 (by decide) rfl

end DebuggersHut
